import Mathlib

/-!
Verification of the thrust protocol-translation core (Thrustmaster to G29
bridge) against its natural-language specification.

The Rust core is shallowly embedded: machine integers become `Nat`/`Int`
with explicit wrapping where the source wraps, `f32` arithmetic is modelled
exactly over `ℚ` (every concrete scenario in the spec uses values that are
exactly representable, and the universally quantified claims are stated over
the mathematical values), and fallible or panicking code returns
`Option`/`Except`.

Sources embedded: `core/src/protocol.rs` (InputTranslator, OutputTranslator),
`core/src/ffb.rs` (FfbEngine), `core/src/device/thrustmaster.rs`
(build_iforce_packet), `core/src/lib.rs` (output translation loop body).
-/

/-! ## Numeric cast helpers (Rust `as` casts and `clamp`) -/

/-- Truncation toward zero of a rational, as performed by a Rust
float-to-integer `as` cast before saturation. -/
def ratTrunc (x : ℚ) : ℤ :=
  if 0 ≤ x then ⌊x⌋ else ⌈x⌉

/-- Rust `f32::clamp(lo, hi)`: `max lo (min hi x)` (no NaNs in the exact
rational model). -/
def ratClamp (x lo hi : ℚ) : ℚ :=
  max lo (min hi x)

/-- Rust `Ord::clamp` on integers. -/
def intClamp (x lo hi : ℤ) : ℤ :=
  max lo (min hi x)

/-- Rust `expr as i16` applied to an f32 value: truncate toward zero and
saturate to the i16 range. -/
def f32ToI16 (x : ℚ) : ℤ :=
  intClamp (ratTrunc x) (-32768) 32767

/-- Rust `expr as u32` applied to an f32 value: truncate toward zero and
saturate to the u32 range. -/
def f32ToU32 (x : ℚ) : ℕ :=
  (intClamp (ratTrunc x) 0 4294967295).toNat

/-- Rust `expr as usize` applied to an f32 value: truncate toward zero and
saturate below at 0 (the upper saturation bound is never reached here). -/
def f32ToUsize (x : ℚ) : ℕ :=
  (max 0 (ratTrunc x)).toNat

/-- Reinterpret a value in `[0, 65535]` as a signed 16-bit integer
(Rust `as i16` on an i32, two's-complement wrap). -/
def wrapI16 (n : ℤ) : ℤ :=
  (n + 32768) % 65536 - 32768

/-- Reinterpret a signed 16-bit integer as its unsigned 16-bit bit pattern
(Rust `as u16`). -/
def u16OfI16 (v : ℤ) : ℕ :=
  (v % 65536).toNat

/-- Little-endian signed 16-bit decode, `i16::from_le_bytes([b0, b1])`. -/
def i16_from_le (b0 b1 : ℕ) : ℤ :=
  let n := b0 + 256 * b1
  if n < 32768 then (n : ℤ) else (n : ℤ) - 65536

/-- Little-endian unsigned 16-bit decode, `u16::from_le_bytes([b0, b1])`. -/
def u16_from_le (b0 b1 : ℕ) : ℕ :=
  b0 + 256 * b1

/-- Low byte of a signed 16-bit value (Rust `v as u8`). -/
def i16LoByte (v : ℤ) : ℕ :=
  (v % 256).toNat

/-- High byte of a signed 16-bit value (Rust `(v >> 8) as u8`; `>>` on `i16`
is an arithmetic shift, i.e. floor division by 256). -/
def i16HiByte (v : ℤ) : ℕ :=
  ((Int.fdiv v 256) % 256).toNat

/-! ## Data model (`core/src/device/mod.rs`, `core/src/config.rs`,
`core/src/ffb.rs` type definitions, `core/src/error.rs`) -/

/-- Input report from the Thrustmaster device (`ThrustmasterInputReport`). -/
structure ThrustmasterInputReport where
  steering : ℤ
  throttle : ℕ
  brake : ℕ
  clutch : ℕ
  buttons : ℕ
  dpad : ℕ
deriving DecidableEq, Repr

/-- Input report for the virtual G29 device (`G29InputReport`). -/
structure G29InputReport where
  report_id : ℕ
  steering : ℕ
  throttle : ℕ
  brake : ℕ
  clutch : ℕ
  buttons : ℕ
  unused : List ℕ
deriving DecidableEq, Repr

/-- Output report from the virtual G29 (FFB commands), `G29OutputReport`. -/
structure G29OutputReport where
  report_id : ℕ
  data : List ℕ
deriving DecidableEq, Repr

/-- IFORCE command for Thrustmaster FFB (`IforceCommand`). -/
structure IforceCommand where
  command_id : ℕ
  data : List ℕ
deriving DecidableEq, Repr

/-- Error type of the translator core (`TranslatorError`); only the
variants reachable from the embedded code are exercised by the proofs, but
the full taxonomy is carried. -/
inductive TranslatorError where
  | HidError : TranslatorError
  | IoError : TranslatorError
  | DeviceNotFound : ℕ → ℕ → TranslatorError
  | DeviceInUse : TranslatorError
  | InvalidReport : String → TranslatorError
  | FfbError : String → TranslatorError
  | ConfigError : String → TranslatorError
  | VirtualDeviceError : String → TranslatorError
  | CalibrationError : String → TranslatorError
  | ProtocolError : String → TranslatorError
  | Timeout : TranslatorError
  | Cancelled : TranslatorError
  | UnsupportedPlatform : TranslatorError
deriving DecidableEq, Repr

/-- Pedal response curve (`CurveType`); LUT entries are f32 modelled as ℚ. -/
inductive CurveType where
  | Linear : CurveType
  | Squared : CurveType
  | Cubed : CurveType
  | Custom : List ℚ → CurveType
deriving DecidableEq, Repr

/-- Per-pedal curve selection (`PedalCurves`). -/
structure PedalCurves where
  throttle_curve : CurveType
  brake_curve : CurveType
  clutch_curve : CurveType
deriving DecidableEq, Repr

/-- Axis multipliers (`AxisScaling`); f32 modelled as ℚ. -/
structure AxisScaling where
  steering_multiplier : ℚ
  throttle_multiplier : ℚ
  brake_multiplier : ℚ
  clutch_multiplier : ℚ
deriving DecidableEq, Repr

/-- Input-shaping configuration (`InputConfig`). The Rust
`HashMap<u8, u8>` button map is embedded as an association list; the
fold over it in `map_buttons` is order-insensitive. -/
structure InputConfig where
  steering_range : ℕ
  steering_deadzone : ℚ
  pedal_curves : PedalCurves
  button_mapping : List (ℕ × ℕ)
  axis_scaling : AxisScaling
deriving DecidableEq, Repr

/-- FFB configuration knobs (`FfbConfig`); f32 gains modelled as ℚ. -/
structure FfbConfig where
  enabled : Bool
  global_gain : ℚ
  spring_gain : ℚ
  damper_gain : ℚ
  friction_gain : ℚ
  constant_gain : ℚ
  periodic_gain : ℚ
  ramp_gain : ℚ
  autocenter_gain : ℚ
  max_force : ℚ
  update_rate_hz : ℕ
deriving DecidableEq, Repr

/-- Waveform of a periodic effect (`Waveform`). -/
inductive Waveform where
  | Sine : Waveform
  | Square : Waveform
  | Triangle : Waveform
  | SawtoothUp : Waveform
  | SawtoothDown : Waveform
deriving DecidableEq, Repr

/-- Condition effect kind (`ConditionType`). -/
inductive ConditionType where
  | Spring : ConditionType
  | Damper : ConditionType
  | Inertia : ConditionType
  | Friction : ConditionType
deriving DecidableEq, Repr

/-- Constant-force effect parameters (`ConstantEffect`). -/
structure ConstantEffect where
  magnitude : ℤ
  duration : ℕ
deriving DecidableEq, Repr

/-- Periodic effect parameters (`PeriodicEffect`). -/
structure PeriodicEffect where
  magnitude : ℕ
  period : ℕ
  phase : ℕ
  waveform : Waveform
deriving DecidableEq, Repr

/-- Condition effect parameters (`ConditionEffect`). -/
structure ConditionEffect where
  positive_coefficient : ℤ
  negative_coefficient : ℤ
  condition_type : ConditionType
deriving DecidableEq, Repr

/-- Ramp effect parameters (`RampEffect`). -/
structure RampEffect where
  start_magnitude : ℤ
  end_magnitude : ℤ
  duration : ℕ
deriving DecidableEq, Repr

/-- Tagged union of effect payloads (`EffectType`). -/
inductive EffectType where
  | Constant : ConstantEffect → EffectType
  | Periodic : PeriodicEffect → EffectType
  | Condition : ConditionEffect → EffectType
  | Ramp : RampEffect → EffectType
deriving DecidableEq, Repr

/-- Parsed FFB effect descriptor (`FfbEffect`). -/
structure FfbEffect where
  id : ℕ
  effect_type : EffectType
  gain : ℕ
deriving DecidableEq, Repr

/-! ## Input translator (`core/src/protocol.rs`, `InputTranslator`) -/

/-- Steering pipeline, `InputTranslator::process_steering`. The retained
`last_steering` field is write-only diagnostic state and is dropped. The
final `as i16` wrap followed by the `as u16` reinterpretation in
`translate` is embedded explicitly via `wrapI16`/`u16OfI16`. -/
def process_steering (deadzone multiplier : ℚ) (raw_steering : ℤ) : ℕ :=
  let normalized : ℚ := (raw_steering : ℚ) / 32767
  let processed : ℚ :=
    if |normalized| < deadzone then 0
    else if 0 < normalized then (normalized - deadzone) / (1 - deadzone)
    else (normalized + deadzone) / (1 - deadzone)
  let scaled : ℚ := processed * multiplier
  let g29_value : ℤ := f32ToI16 (scaled * 32767)
  let result : ℤ := wrapI16 (intClamp (g29_value + 32768) 0 65535)
  u16OfI16 result

/-- Pedal pipeline, `InputTranslator::apply_pedal_curve`. Returns `none`
exactly when the Rust code panics: a `Custom` curve with an empty table
makes `table.len() - 1` underflow and the table indexing go out of bounds. -/
def apply_pedal_curve (curve : CurveType) (raw_value : ℕ) : Option ℕ :=
  let normalized : ℚ := (raw_value : ℚ) / 255
  match curve with
  | .Linear => some (f32ToU32 (normalized * 1023))
  | .Squared => some (f32ToU32 (normalized * normalized * 1023))
  | .Cubed => some (f32ToU32 (normalized * normalized * normalized * 1023))
  | .Custom table =>
    if table.isEmpty then none
    else
      let index : ℕ := f32ToUsize (normalized * ((table.length - 1 : ℕ) : ℚ))
      let curved : ℚ :=
        if table.length - 1 ≤ index then table.getD (table.length - 1) 0
        else
          let frac : ℚ := normalized * ((table.length - 1 : ℕ) : ℚ) - (index : ℚ)
          table.getD index 0 * (1 - frac) + table.getD (index + 1) 0 * frac
      some (f32ToU32 (curved * 1023))

/-- Button remap, `InputTranslator::map_buttons`. Rust release semantics for
the shifts: the shift amount is masked to the bit width (`% 16` for the
`u16` test, `% 32` for the `u32` set). -/
def map_buttons (button_mapping : List (ℕ × ℕ)) (buttons : ℕ) : ℕ :=
  button_mapping.foldl
    (fun mapped pair =>
      if buttons &&& (1 <<< (pair.1 % 16)) ≠ 0 then
        mapped ||| (1 <<< (pair.2 % 32))
      else mapped)
    0

/-- D-pad merge, `InputTranslator::include_dpad`: clamp the D-pad value to 8
(centre) and shift it into bits 24..31 of the button field. -/
def include_dpad (buttons : ℕ) (dpad : ℕ) : ℕ :=
  buttons ||| ((if dpad < 8 then dpad else 8) <<< 24)

/-- Whole-report translation, `InputTranslator::translate`. The `u32`
pedal values are narrowed with `as u16` (mod 65536) when stored. `none`
exactly when a pedal-curve application panics. -/
def InputTranslator.translate (config : InputConfig) (input : ThrustmasterInputReport) :
    Option G29InputReport :=
  let steering := process_steering config.steering_deadzone
    config.axis_scaling.steering_multiplier input.steering
  match apply_pedal_curve config.pedal_curves.throttle_curve input.throttle,
        apply_pedal_curve config.pedal_curves.brake_curve input.brake,
        apply_pedal_curve config.pedal_curves.clutch_curve input.clutch with
  | some throttle, some brake, some clutch =>
    let buttons := map_buttons config.button_mapping input.buttons
    let buttons_with_dpad := include_dpad buttons input.dpad
    some {
      report_id := 1
      steering := steering
      throttle := throttle % 65536
      brake := brake % 65536
      clutch := clutch % 65536
      buttons := buttons_with_dpad
      unused := [0, 0, 0, 0] }
  | _, _, _ => none

/-! ## FFB parser (`core/src/protocol.rs`, `OutputTranslator`). The
`OutputTranslator` struct holds an `OutputConfig` that the parsing methods
never read, so the embedding omits it. -/

/-- Type-code dispatch, `OutputTranslator::parse_effect_by_type`. `data`
is the payload after the effect block index and the type code. Under the
caller's length guard every `getD` index is in bounds. -/
def parse_effect_by_type (effect_id effect_type : ℕ) (data : List ℕ) :
    Except TranslatorError FfbEffect :=
  if effect_type = 1 then
    if data.length < 4 then
      .error (.InvalidReport "Constant effect data too short")
    else
      .ok { id := effect_id
            effect_type := .Constant {
              magnitude := i16_from_le (data.getD 0 0) (data.getD 1 0)
              duration := u16_from_le (data.getD 2 0) (data.getD 3 0) }
            gain := 255 }
  else if 3 ≤ effect_type ∧ effect_type ≤ 7 then
    if data.length < 6 then
      .error (.InvalidReport "Periodic effect data too short")
    else
      .ok { id := effect_id
            effect_type := .Periodic {
              magnitude := u16_from_le (data.getD 0 0) (data.getD 1 0)
              period := u16_from_le (data.getD 2 0) (data.getD 3 0)
              phase := u16_from_le (data.getD 4 0) (data.getD 5 0)
              waveform :=
                if effect_type = 3 then .Square
                else if effect_type = 4 then .Sine
                else if effect_type = 5 then .Triangle
                else if effect_type = 6 then .SawtoothUp
                else .SawtoothDown }
            gain := 255 }
  else if 8 ≤ effect_type ∧ effect_type ≤ 11 then
    if data.length < 4 then
      .error (.InvalidReport "Condition effect data too short")
    else
      .ok { id := effect_id
            effect_type := .Condition {
              positive_coefficient := i16_from_le (data.getD 0 0) (data.getD 1 0)
              negative_coefficient := i16_from_le (data.getD 2 0) (data.getD 3 0)
              condition_type :=
                if effect_type = 8 then .Spring
                else if effect_type = 9 then .Damper
                else if effect_type = 10 then .Inertia
                else .Friction }
            gain := 255 }
  else
    .error (.FfbError ("Unsupported effect type: " ++ toString effect_type))

/-- Report-level accept filter, `OutputTranslator::parse_ffb_effect`.
Reports with the wrong id or an empty payload (or an effect block index
outside `[1, 40]`) are `ok none`; an accepted index with a payload shorter
than 8 bytes is an `InvalidReport` error before any type dispatch. -/
def parse_ffb_effect (output : G29OutputReport) :
    Except TranslatorError (Option FfbEffect) :=
  if output.report_id ≠ 1 ∨ output.data.isEmpty then .ok none
  else
    if 0 < output.data.headD 0 ∧ output.data.headD 0 ≤ 40 then
      if output.data.length < 8 then
        .error (.InvalidReport "FFB report too short")
      else
        (parse_effect_by_type (output.data.headD 0) (output.data.getD 1 0)
          (output.data.drop 2)).map some
    else .ok none

/-! ## FFB engine (`core/src/ffb.rs`, `FfbEngine`). `Instant` timestamps are
modelled as milliseconds on a monotone ℕ clock passed in as `now`; the Rust
`HashMap<u8, ActiveEffect>` is an association list whose `insert` replaces
any existing binding for the key. -/

/-- Engine-owned record for one active effect (`ActiveEffect`). -/
structure ActiveEffect where
  effect : FfbEffect
  start_time : ℕ
  enabled : Bool
deriving DecidableEq, Repr

/-- Mutable state of `FfbEngine`: the active-effect table and the last
update timestamp (config is read-only and passed separately). -/
structure FfbEngineState where
  active_effects : List (ℕ × ActiveEffect)
  last_update : ℕ
deriving DecidableEq, Repr

/-- `HashMap::insert` on the association-list model: the new binding
replaces any existing binding with the same key. -/
def insertActive (m : List (ℕ × ActiveEffect)) (k : ℕ) (v : ActiveEffect) :
    List (ℕ × ActiveEffect) :=
  (k, v) :: m.filter (fun p => p.1 ≠ k)

/-- Gain application, `FfbEngine::apply_gain`: multiply by the selected
per-effect gain and the global gain, clamp to `[-32767, 32767]`, then the
`as i16` truncation (saturation is a no-op after the clamp). -/
def apply_gain (config : FfbConfig) (value : ℤ) (gain : ℚ) : ℤ :=
  f32ToI16 (ratClamp ((value : ℚ) * gain * config.global_gain) (-32767) 32767)

/-- Force-limit scaling, `FfbEngine::scale_magnitude`: multiply by
`max_force / 2.5` and clamp again. -/
def scale_magnitude (config : FfbConfig) (magnitude : ℤ) : ℤ :=
  f32ToI16 (ratClamp ((magnitude : ℚ) * (config.max_force / (5 / 2))) (-32767) 32767)

/-- Constant-force synthesis, `FfbEngine::translate_constant_effect`:
command id 0x41, payload `[effect_id, mag_lo, mag_hi, dur_lo, dur_hi]`.
The Rust `Result` wrapper is omitted: the function has no failing path. -/
def translate_constant_effect (config : FfbConfig) (effect_id : ℕ)
    (effect : ConstantEffect) : List IforceCommand :=
  let magnitude := apply_gain config effect.magnitude config.constant_gain
  let scaled_magnitude := scale_magnitude config magnitude
  [{ command_id := 0x41
     data := [effect_id,
              i16LoByte scaled_magnitude,
              i16HiByte scaled_magnitude,
              effect.duration &&& 0xFF,
              effect.duration >>> 8] }]

/-- Periodic synthesis, `FfbEngine::translate_periodic_effect`: command id
0x42, payload `[effect_id, waveform_id, mag_lo, mag_hi, period_lo,
period_hi, phase_lo, phase_hi]`. -/
def translate_periodic_effect (config : FfbConfig) (effect_id : ℕ)
    (effect : PeriodicEffect) : List IforceCommand :=
  let magnitude := apply_gain config
    (i16_from_le (effect.magnitude % 256) ((effect.magnitude >>> 8) % 256))
    config.periodic_gain
  let scaled_magnitude := scale_magnitude config magnitude
  let waveform_id : ℕ :=
    match effect.waveform with
    | .Sine => 0x01
    | .Square => 0x02
    | .Triangle => 0x03
    | .SawtoothUp => 0x04
    | .SawtoothDown => 0x05
  [{ command_id := 0x42
     data := [effect_id,
              waveform_id,
              i16LoByte scaled_magnitude,
              i16HiByte scaled_magnitude,
              effect.period &&& 0xFF,
              effect.period >>> 8,
              effect.phase &&& 0xFF,
              effect.phase >>> 8] }]

/-- Condition synthesis, `FfbEngine::translate_condition_effect`: command id
0x43, payload `[effect_id, condition_id, pos_lo, pos_hi, neg_lo, neg_hi]`;
Inertia uses the fixed gain 1.0. -/
def translate_condition_effect (config : FfbConfig) (effect_id : ℕ)
    (effect : ConditionEffect) : List IforceCommand :=
  let gain : ℚ :=
    match effect.condition_type with
    | .Spring => config.spring_gain
    | .Damper => config.damper_gain
    | .Inertia => 1
    | .Friction => config.friction_gain
  let pos_coeff := apply_gain config effect.positive_coefficient gain
  let neg_coeff := apply_gain config effect.negative_coefficient gain
  let condition_id : ℕ :=
    match effect.condition_type with
    | .Spring => 0x01
    | .Damper => 0x02
    | .Inertia => 0x03
    | .Friction => 0x04
  [{ command_id := 0x43
     data := [effect_id,
              condition_id,
              i16LoByte pos_coeff,
              i16HiByte pos_coeff,
              i16LoByte neg_coeff,
              i16HiByte neg_coeff] }]

/-- Ramp synthesis, `FfbEngine::translate_ramp_effect`: command id 0x44,
payload `[effect_id, start_lo, start_hi, end_lo, end_hi, dur_lo, dur_hi]`. -/
def translate_ramp_effect (config : FfbConfig) (effect_id : ℕ)
    (effect : RampEffect) : List IforceCommand :=
  let start_magnitude := apply_gain config effect.start_magnitude config.ramp_gain
  let end_magnitude := apply_gain config effect.end_magnitude config.ramp_gain
  [{ command_id := 0x44
     data := [effect_id,
              i16LoByte start_magnitude,
              i16HiByte start_magnitude,
              i16LoByte end_magnitude,
              i16HiByte end_magnitude,
              effect.duration &&& 0xFF,
              effect.duration >>> 8] }]

/-- Effect ingestion, `FfbEngine::translate_effect`: when FFB is disabled
return no commands (without touching the table); otherwise insert/refresh
the active-effect entry and synthesise the IFORCE command for the
descriptor. The Rust `Result` wrapper is omitted: no branch can fail. -/
def translate_effect (config : FfbConfig) (st : FfbEngineState) (now : ℕ)
    (effect : FfbEffect) : FfbEngineState × List IforceCommand :=
  if !config.enabled then (st, [])
  else
    let active_effect : ActiveEffect :=
      { effect := effect, start_time := now, enabled := true }
    let st2 : FfbEngineState :=
      { st with active_effects :=
          insertActive st.active_effects effect.id active_effect }
    match effect.effect_type with
    | .Constant c => (st2, translate_constant_effect config effect.id c)
    | .Periodic p => (st2, translate_periodic_effect config effect.id p)
    | .Condition c => (st2, translate_condition_effect config effect.id c)
    | .Ramp r => (st2, translate_ramp_effect config effect.id r)

/-- Per-effect refresh hook, `FfbEngine::update_periodic_effect`: computes a
phase increment but always returns no command in this version. -/
def update_periodic_effect (effect_id : ℕ) (effect : PeriodicEffect)
    (now : ℕ) : Option IforceCommand :=
  none

/-- Periodic sweep, `FfbEngine::update_active_effects`. Returns `none`
exactly when the Rust code panics: `1000 / update_rate_hz` divides by zero
when `update_rate_hz = 0`, before anything else happens. Otherwise: rate
gate on `last_update`, expiry sweep for timed Constant effects, no
refresh commands (the per-effect hook never yields one). -/
def update_active_effects (config : FfbConfig) (st : FfbEngineState)
    (now : ℕ) : Option (FfbEngineState × List IforceCommand) :=
  if config.update_rate_hz = 0 then none
  else if now - st.last_update < 1000 / config.update_rate_hz then some (st, [])
  else
    let surviving := st.active_effects.filter (fun p =>
      match p.2.effect.effect_type with
      | .Constant c => if 0 < c.duration then now - p.2.start_time < c.duration else true
      | _ => true)
    let commands := surviving.filterMap (fun p =>
      match p.2.effect.effect_type with
      | .Periodic per => update_periodic_effect p.1 per now
      | _ => none)
    some ({ active_effects := surviving, last_update := now }, commands)

/-! ## IFORCE framing (`core/src/device/thrustmaster.rs`) -/

/-- XOR of a list of bytes. -/
def xorBytes (bytes : List ℕ) : ℕ :=
  bytes.foldl (fun acc b => acc ^^^ b) 0

/-- Wire framing, `ThrustmasterDevice::build_iforce_packet`:
`[length, command_id, payload…, checksum]` with
`length = (payload.len() + 2) as u8` and the checksum the XOR of all
preceding bytes. The Rust `Result` wrapper is omitted: it is always `Ok`. -/
def build_iforce_packet (command : IforceCommand) : List ℕ :=
  let packet := ((command.data.length + 2) % 256) :: command.command_id :: command.data
  packet ++ [xorBytes packet]

/-! ## Output translation loop body (`core/src/lib.rs`,
`ProtocolTranslator::run_output_translation_task`). One iteration of the
loop is embedded as a step function over the outcome of
`VirtualG29Port.read_output`; every `?` in the Rust body is an abort of the
loop with that error. Command sends are not modelled (their failures abort
through the same `?` mechanism). -/

/-- Outcome of one non-blocking `read_output` poll. -/
inductive OutputPortRead where
  | noData : OutputPortRead
  | report : G29OutputReport → OutputPortRead
  | fail : TranslatorError → OutputPortRead
deriving DecidableEq, Repr

/-- One iteration of the output translation loop. A port failure is
propagated by the `?` on `read_output`; a parse failure is propagated by
the `?` on `parse_ffb_effect` (there is no log-and-continue path);
otherwise the engine runs and the loop continues with the commands to
send. -/
def run_output_translation_step (config : FfbConfig) (st : FfbEngineState)
    (now : ℕ) (read : OutputPortRead) :
    Except TranslatorError (FfbEngineState × List IforceCommand) :=
  match read with
  | .fail e => .error e
  | .noData => .ok (st, [])
  | .report r =>
    match parse_ffb_effect r with
    | .error e => .error e
    | .ok none => .ok (st, [])
    | .ok (some effect) => .ok (translate_effect config st now effect)

/-! ## Concrete fixtures used by scenario theorems and witnesses -/

/-- FFB configuration of scenario S4: enabled, all gains 1.0,
max_force = 2.5 N. -/
def cfgS4 : FfbConfig :=
  { enabled := true, global_gain := 1, spring_gain := 1, damper_gain := 1,
    friction_gain := 1, constant_gain := 1, periodic_gain := 1, ramp_gain := 1,
    autocenter_gain := 1, max_force := 5 / 2, update_rate_hz := 1000 }

/-- FFB configuration of scenario S6: constant_gain 0.5, global_gain 0.5,
max_force 5.0 N. -/
def cfgS6 : FfbConfig :=
  { cfgS4 with constant_gain := 1 / 2, global_gain := 1 / 2, max_force := 5 }

/-- Empty engine state. -/
def st0 : FfbEngineState :=
  { active_effects := [], last_update := 0 }

/-! ## Helper lemmas -/

lemma ratTrunc_of_nonneg {x : ℚ} (h : 0 ≤ x) : ratTrunc x = ⌊x⌋ := by
  simp [ratTrunc, h]

lemma ratTrunc_nonneg {x : ℚ} (h : 0 ≤ x) : 0 ≤ ratTrunc x := by
  rw [ratTrunc_of_nonneg h]
  exact Int.floor_nonneg.mpr h

lemma ratTrunc_le_of_le {x : ℚ} {n : ℤ} (hx : 0 ≤ x) (h : x ≤ (n : ℚ)) :
    ratTrunc x ≤ n := by
  rw [ratTrunc_of_nonneg hx]
  exact (Int.floor_le_floor h).trans_eq (Int.floor_intCast n)

lemma ratTrunc_mono_of_nonneg {x y : ℚ} (hx : 0 ≤ x) (h : x ≤ y) :
    ratTrunc x ≤ ratTrunc y := by
  rw [ratTrunc_of_nonneg hx, ratTrunc_of_nonneg (hx.trans h)]
  exact Int.floor_le_floor h

lemma f32ToU32_le {x : ℚ} {n : ℕ} (hx : 0 ≤ x) (hn : n ≤ 4294967295)
    (h : x ≤ (n : ℚ)) : f32ToU32 x ≤ n := by
  have ht : ratTrunc x ≤ (n : ℤ) := ratTrunc_le_of_le hx (by exact_mod_cast h)
  unfold f32ToU32 intClamp
  omega

lemma f32ToU32_mono {x y : ℚ} (hx : 0 ≤ x) (h : x ≤ y) :
    f32ToU32 x ≤ f32ToU32 y := by
  have := ratTrunc_mono_of_nonneg hx h
  unfold f32ToU32 intClamp
  omega

lemma u16OfI16_le (v : ℤ) : u16OfI16 v ≤ 65535 := by
  unfold u16OfI16
  omega

lemma u16OfI16_wrapI16 {c : ℤ} (h0 : 0 ≤ c) (h1 : c ≤ 65535) :
    u16OfI16 (wrapI16 c) = c.toNat := by
  unfold u16OfI16 wrapI16
  omega

lemma xorBytes_append_single (l : List ℕ) (x : ℕ) :
    xorBytes (l ++ [x]) = xorBytes l ^^^ x := by
  simp [xorBytes, List.foldl_append]

/-! ## Claim C10: rate-gate division -/

/-- C10: `update_active_effects` computes its rate-gate interval as the
integer division `1000 / update_rate_hz` milliseconds; with
`update_rate_hz = 0` every call divides by zero (modelled as `none`, the
panic), and with `update_rate_hz ≥ 1` the call is panic-free. -/
theorem C10_update_rate_division (config : FfbConfig) (st : FfbEngineState)
    (now : ℕ) :
    (config.update_rate_hz = 0 → update_active_effects config st now = none) ∧
    (1 ≤ config.update_rate_hz → (update_active_effects config st now).isSome) := by
  constructor
  · intro h
    simp [update_active_effects, h]
  · intro h
    unfold update_active_effects
    have : ¬ config.update_rate_hz = 0 := by omega
    simp only [this, if_false]
    split <;> simp

/-- Witness for C10 at a concrete configuration: the zero-rate call panics
and the 1000 Hz call does not. -/
theorem C10_update_rate_division_witness :
    update_active_effects { cfgS4 with update_rate_hz := 0 } st0 5 = none ∧
    (update_active_effects cfgS4 st0 5).isSome :=
  ⟨(C10_update_rate_division { cfgS4 with update_rate_hz := 0 } st0 5).1 rfl,
   (C10_update_rate_division cfgS4 st0 5).2 (by decide)⟩

/-! ## Claim C6: IFORCE framing -/

set_option maxRecDepth 10000 in
/-- C6 counterexample: for a 254-byte payload the length byte wraps
(`(254 + 2) as u8 = 0`), so byte 0 of the frame is not `payload.len() + 2`. -/
theorem C6_counterexample :
    (build_iforce_packet { command_id := 0, data := List.replicate 254 0 }).headD 0 = 0 ∧
    (0 : ℕ) ≠ 254 + 2 := by
  decide

/-- C6 amended: for every IforceCommand, byte 0 of the frame equals
`(payload.len() + 2) mod 256` — equal to `payload.len() + 2` whenever the
payload has at most 253 bytes — and the XOR of all bytes of the frame
(length, command id, payload, checksum) is 0. -/
theorem C6_frame_length_and_xor (command : IforceCommand) :
    (build_iforce_packet command).headD 0 = (command.data.length + 2) % 256 ∧
    xorBytes (build_iforce_packet command) = 0 ∧
    (command.data.length ≤ 253 →
      (build_iforce_packet command).headD 0 = command.data.length + 2) := by
  refine ⟨rfl, ?_, ?_⟩
  · unfold build_iforce_packet
    rw [xorBytes_append_single]
    exact Nat.xor_self _
  · intro h
    show (command.data.length + 2) % 256 = command.data.length + 2
    omega

/-- Witness for C6 at the S4 command: frame `[07, 41, 01, F4, 01, E8, 03, 59]`
has length byte 5 + 2 and closing XOR 0. -/
theorem C6_frame_length_and_xor_witness :
    (build_iforce_packet { command_id := 0x41, data := [1, 0xF4, 1, 0xE8, 3] }).headD 0 = 5 + 2 ∧
    xorBytes (build_iforce_packet { command_id := 0x41, data := [1, 0xF4, 1, 0xE8, 3] }) = 0 :=
  ⟨(C6_frame_length_and_xor { command_id := 0x41, data := [1, 0xF4, 1, 0xE8, 3] }).2.2 (by decide),
   (C6_frame_length_and_xor { command_id := 0x41, data := [1, 0xF4, 1, 0xE8, 3] }).2.1⟩

/-! ## Claim C1: scenario S4 round trip -/

/-- C1 counterexample: the spec's literal S4 report — id 0x01, payload
`[01, 01, 00, F4, 01, E8, 03]` — does not produce an IFORCE command at all:
the 7-byte payload fails the parser's 8-byte minimum with `InvalidReport`. -/
theorem C1_counterexample :
    parse_ffb_effect { report_id := 1, data := [1, 1, 0, 0xF4, 1, 0xE8, 3] } =
      .error (.InvalidReport "FFB report too short") := by
  rfl

/-- C1 amended: with the magnitude bytes directly after the type code and
the payload padded to the parser's 8-byte minimum —
`[01, 01, F4, 01, E8, 03, 00, 00]` — the parser yields the Constant
descriptor (magnitude +500, duration 1000 ms), the engine (all gains 1.0,
max_force 2.5) emits exactly one IFORCE command with id 0x41 and payload
`[01, F4, 01, E8, 03]`, and framing that command gives
`[07, 41, 01, F4, 01, E8, 03, 59]` (length byte `payload.len() + 2 = 7`,
not the spec's `05`) whose XOR closes to 0. -/
theorem C1_constant_round_trip :
    parse_ffb_effect { report_id := 1, data := [1, 1, 0xF4, 1, 0xE8, 3, 0, 0] } =
      .ok (some { id := 1,
                  effect_type := .Constant { magnitude := 500, duration := 1000 },
                  gain := 255 }) ∧
    (translate_effect cfgS4 st0 0
        { id := 1,
          effect_type := .Constant { magnitude := 500, duration := 1000 },
          gain := 255 }).2 =
      [{ command_id := 0x41, data := [1, 0xF4, 1, 0xE8, 3] }] ∧
    build_iforce_packet { command_id := 0x41, data := [1, 0xF4, 1, 0xE8, 3] } =
      [7, 0x41, 1, 0xF4, 1, 0xE8, 3, 0x59] ∧
    xorBytes [7, 0x41, 1, 0xF4, 1, 0xE8, 3, 0x59] = 0 := by
  refine ⟨by rfl, ?_, by rfl, by rfl⟩
  norm_num [translate_effect, translate_constant_effect, apply_gain, scale_magnitude,
    ratClamp, ratTrunc, f32ToI16, intClamp, cfgS4, i16LoByte, i16HiByte, Int.fdiv]
  decide

/-! ## Claim C2: error propagation in the output loop -/

/-- C2 counterexample: a per-report parse failure (payload with the
unsupported effect type code 0x02) is not dropped with processing
continuing — the loop iteration aborts with the typed error, exactly as a
port-level failure would. -/
theorem C2_counterexample :
    run_output_translation_step cfgS4 st0 0
        (.report { report_id := 1, data := [1, 2, 0, 0, 0, 0, 0, 0] }) =
      .error (.FfbError "Unsupported effect type: 2") := by
  rfl

/-- C2 amended: in the output flow every failure aborts the translation
loop with its typed error — port-level failures through the `?` on
`read_output` and per-report parse failures through the `?` on
`parse_ffb_effect` alike; no per-report error is logged and dropped.
Processing continues exactly on a successful poll: no data, a non-effect
report, or a parsed effect (which runs the engine). -/
theorem C2_all_failures_abort (config : FfbConfig) (st : FfbEngineState)
    (now : ℕ) :
    (∀ e, run_output_translation_step config st now (.fail e) = .error e) ∧
    (∀ r e, parse_ffb_effect r = .error e →
      run_output_translation_step config st now (.report r) = .error e) ∧
    (run_output_translation_step config st now .noData = .ok (st, [])) ∧
    (∀ r, parse_ffb_effect r = .ok none →
      run_output_translation_step config st now (.report r) = .ok (st, [])) ∧
    (∀ r effect, parse_ffb_effect r = .ok (some effect) →
      run_output_translation_step config st now (.report r) =
        .ok (translate_effect config st now effect)) := by
  refine ⟨fun e => rfl, fun r e h => ?_, rfl, fun r h => ?_, fun r effect h => ?_⟩
  · simp [run_output_translation_step, h]
  · simp [run_output_translation_step, h]
  · simp [run_output_translation_step, h]

/-- Witness for C2 at concrete inputs: a hard port failure and a
concrete parse failure both abort with their typed errors. -/
theorem C2_all_failures_abort_witness :
    run_output_translation_step cfgS4 st0 0 (.fail .Timeout) = .error .Timeout ∧
    run_output_translation_step cfgS4 st0 0
        (.report { report_id := 1, data := [2, 2, 0, 0, 0, 0, 0, 0] }) =
      .error (.FfbError "Unsupported effect type: 2") :=
  ⟨(C2_all_failures_abort cfgS4 st0 0).1 .Timeout,
   (C2_all_failures_abort cfgS4 st0 0).2.1
     { report_id := 1, data := [2, 2, 0, 0, 0, 0, 0, 0] }
     (.FfbError "Unsupported effect type: 2") (by rfl)⟩

/-! ## Claim C3: parser length policy -/

/-- C3 counterexample: a Constant report whose payload after the type code
has exactly the table minimum of 4 bytes — total payload
`[01, 01, F4, 01, E8, 03]`, 6 bytes — is rejected with `InvalidReport`
although the claim requires it to parse: the parser enforces a uniform
8-byte minimum on the whole payload before any per-type check. -/
theorem C3_counterexample :
    parse_ffb_effect { report_id := 1, data := [1, 1, 0xF4, 1, 0xE8, 3] } =
      .error (.InvalidReport "FFB report too short") := by
  rfl

lemma parse_effect_by_type_ok_of_len (effect_id effect_type : ℕ)
    (rest : List ℕ)
    (hty : effect_type = 1 ∨ (3 ≤ effect_type ∧ effect_type ≤ 7) ∨
      (8 ≤ effect_type ∧ effect_type ≤ 11))
    (hlen : 6 ≤ rest.length) :
    ∃ e, parse_effect_by_type effect_id effect_type rest = .ok e := by
  unfold parse_effect_by_type
  split_ifs with h1 h2 h3 h4 h5 h6 <;>
    first
      | exact ⟨_, rfl⟩
      | (exfalso; rcases hty with h | h | h <;> omega)

/-- C3 amended: for an output report with id 0x01, an effect block index in
`[1, 40]` and an accepted type code, parsing fails with `InvalidReport`
exactly when the total payload is shorter than 8 bytes — equivalently when
the payload after the type code is shorter than 6 bytes — and succeeds
otherwise. The per-type minima of the table (4 bytes for Constant
0x01 and Conditions 0x08–0x0B) are subsumed by this uniform pre-dispatch
check: a Constant or Condition payload of 4 or 5 bytes after the type code
is rejected, not accepted. -/
theorem C3_parser_length_policy (d0 d1 : ℕ) (rest : List ℕ)
    (hid1 : 1 ≤ d0) (hid2 : d0 ≤ 40)
    (hty : d1 = 1 ∨ (3 ≤ d1 ∧ d1 ≤ 7) ∨ (8 ≤ d1 ∧ d1 ≤ 11)) :
    (rest.length < 6 →
      parse_ffb_effect { report_id := 1, data := d0 :: d1 :: rest } =
        .error (.InvalidReport "FFB report too short")) ∧
    (6 ≤ rest.length →
      ∃ e, parse_ffb_effect { report_id := 1, data := d0 :: d1 :: rest } =
        .ok (some e)) := by
  constructor
  · intro hlen
    unfold parse_ffb_effect
    simp only [List.isEmpty_cons]
    rw [if_neg (by simp)]
    simp only [List.headD_cons]
    rw [if_pos ⟨by omega, hid2⟩, if_pos (by simp; omega)]
  · intro hlen
    unfold parse_ffb_effect
    simp only [List.isEmpty_cons]
    rw [if_neg (by simp)]
    simp only [List.headD_cons]
    rw [if_pos ⟨by omega, hid2⟩, if_neg (by simp; omega)]
    obtain ⟨e, he⟩ := parse_effect_by_type_ok_of_len d0 d1 rest hty hlen
    refine ⟨e, ?_⟩
    simp only [List.getD_cons_succ, List.getD_cons_zero, List.drop_succ_cons,
      List.drop_zero, he, Except.map]

/-- Witness for C3 at concrete inputs: the 6-byte-rest Constant report
parses, and a 4-byte-rest Constant report is rejected. -/
theorem C3_parser_length_policy_witness :
    (∃ e, parse_ffb_effect { report_id := 1, data := [1, 1, 0xF4, 1, 0xE8, 3, 0, 0] } =
      .ok (some e)) ∧
    parse_ffb_effect { report_id := 1, data := [1, 1, 0xF4, 1, 0xE8, 3] } =
      .error (.InvalidReport "FFB report too short") :=
  ⟨(C3_parser_length_policy 1 1 [0xF4, 1, 0xE8, 3, 0, 0] (by decide) (by decide)
      (by decide)).2 (by decide),
   (C3_parser_length_policy 1 1 [0xF4, 1, 0xE8, 3] (by decide) (by decide)
      (by decide)).1 (by decide)⟩

/-! ## Claim C7: gain composition -/

/-- C7: the Constant path composes per-effect gain, then global gain, then
the clamp (inside `apply_gain`), then the `max_force / 2.5` ratio, then the
second clamp (inside `scale_magnitude`), re-encoding the result as signed
16-bit little-endian; and in the S6 instance (magnitude +10000,
constant_gain 0.5, global_gain 0.5, max_force 5.0) the scaled magnitude is
5000, emitted as bytes `88 13`. -/
theorem C7_gain_composition :
    (∀ (config : FfbConfig) (effect_id : ℕ) (c : ConstantEffect),
      translate_constant_effect config effect_id c =
        [{ command_id := 0x41
           data := [effect_id,
             i16LoByte (scale_magnitude config
               (apply_gain config c.magnitude config.constant_gain)),
             i16HiByte (scale_magnitude config
               (apply_gain config c.magnitude config.constant_gain)),
             c.duration &&& 0xFF,
             c.duration >>> 8] }]) ∧
    apply_gain cfgS6 10000 cfgS6.constant_gain = 2500 ∧
    scale_magnitude cfgS6 2500 = 5000 ∧
    translate_constant_effect cfgS6 1 { magnitude := 10000, duration := 0 } =
      [{ command_id := 0x41, data := [1, 0x88, 0x13, 0, 0] }] := by
  refine ⟨fun config effect_id c => rfl, ?_, ?_, ?_⟩
  · norm_num [apply_gain, ratClamp, ratTrunc, f32ToI16, intClamp, cfgS6, cfgS4]
  · norm_num [scale_magnitude, ratClamp, ratTrunc, f32ToI16, intClamp, cfgS6, cfgS4]
  · norm_num [translate_constant_effect, apply_gain, scale_magnitude, ratClamp,
      ratTrunc, f32ToI16, intClamp, cfgS6, cfgS4, i16LoByte, i16HiByte, Int.fdiv]
    decide

/-! ## Claim C4: steering range and deadzone centring -/

lemma process_steering_le (deadzone multiplier : ℚ) (raw : ℤ) :
    process_steering deadzone multiplier raw ≤ 65535 :=
  u16OfI16_le _

lemma process_steering_center (deadzone multiplier : ℚ) (raw : ℤ)
    (h : |(raw : ℚ) / 32767| < deadzone) :
    process_steering deadzone multiplier raw = 32768 := by
  simp only [process_steering]
  rw [if_pos h]
  norm_num [f32ToI16, ratTrunc, intClamp, wrapI16, u16OfI16]
  decide

/-- C4: for every raw steering value in `[-32768, 32767]`, every deadzone in
`[0, 1)` and every steering multiplier, the steering field of the
`G29InputReport` produced by `translate` lies in `[0, 65535]`, and it equals
0x8000 whenever `|raw / 32767| < deadzone`. -/
theorem C4_steering_range_and_center (config : InputConfig)
    (input : ThrustmasterInputReport) (rep : G29InputReport)
    (h : InputTranslator.translate config input = some rep)
    (hlo : -32768 ≤ input.steering) (hhi : input.steering ≤ 32767)
    (hdz0 : 0 ≤ config.steering_deadzone) (hdz1 : config.steering_deadzone < 1) :
    rep.steering ≤ 65535 ∧
    (|(input.steering : ℚ) / 32767| < config.steering_deadzone →
      rep.steering = 32768) := by
  have hsteer : rep.steering = process_steering config.steering_deadzone
      config.axis_scaling.steering_multiplier input.steering := by
    unfold InputTranslator.translate at h
    split at h
    · rw [Option.some.injEq] at h
      rw [← h]
    · exact absurd h (by simp)
  rw [hsteer]
  exact ⟨process_steering_le _ _ _, fun hc => process_steering_center _ _ _ hc⟩

/-- Pedal-curve configuration used by input-side witnesses: all Linear. -/
def pedalCurvesW : PedalCurves :=
  { throttle_curve := .Linear, brake_curve := .Linear, clutch_curve := .Linear }

/-- Axis scaling used by input-side witnesses: all multipliers 1.0. -/
def axisScalingW : AxisScaling :=
  { steering_multiplier := 1, throttle_multiplier := 1, brake_multiplier := 1,
    clutch_multiplier := 1 }

/-- Input configuration used by input-side witnesses: deadzone 0.02, Linear
curves, empty button map, unit multipliers. -/
def cfgW : InputConfig :=
  { steering_range := 900, steering_deadzone := 1 / 50,
    pedal_curves := pedalCurvesW, button_mapping := [],
    axis_scaling := axisScalingW }

/-- All-zero physical input report. -/
def inputW : ThrustmasterInputReport :=
  { steering := 0, throttle := 0, brake := 0, clutch := 0, buttons := 0,
    dpad := 0 }

/-- The G29 report `translate` produces for `inputW` under `cfgW`. -/
def repW : G29InputReport :=
  { report_id := 1, steering := 32768, throttle := 0, brake := 0, clutch := 0,
    buttons := 0, unused := [0, 0, 0, 0] }

lemma translate_cfgW_inputW : InputTranslator.translate cfgW inputW = some repW := by
  norm_num [InputTranslator.translate, process_steering, apply_pedal_curve,
    map_buttons, include_dpad, f32ToI16, f32ToU32, ratTrunc, intClamp, wrapI16,
    u16OfI16, cfgW, pedalCurvesW, axisScalingW, inputW, repW]
  decide

/-- Witness for C4 at raw steering 0, deadzone 0.02, multiplier 1.0: the
produced steering is in range and centred at 0x8000. -/
theorem C4_steering_range_and_center_witness :
    repW.steering ≤ 65535 ∧ repW.steering = 32768 := by
  have h := C4_steering_range_and_center cfgW inputW repW translate_cfgW_inputW
    (by decide) (by decide) (by norm_num [cfgW]) (by norm_num [cfgW])
  exact ⟨h.1, h.2 (by norm_num [cfgW, inputW])⟩

/-! ## Claim C8: active-effect table invariant -/

/-- Invariant of the engine's active-effect table: association-list keys
are distinct (as for the Rust `HashMap`) and every key lies in `[1, 40]`. -/
def EngineInv (st : FfbEngineState) : Prop :=
  (st.active_effects.map Prod.fst).Nodup ∧
  ∀ p ∈ st.active_effects, 1 ≤ p.1 ∧ p.1 ≤ 40

lemma parse_effect_by_type_id (effect_id effect_type : ℕ) (data : List ℕ)
    (e : FfbEffect) (h : parse_effect_by_type effect_id effect_type data = .ok e) :
    e.id = effect_id := by
  unfold parse_effect_by_type at h
  split_ifs at h <;>
    first
      | (rw [Except.ok.injEq] at h
         subst h
         rfl)
      | simp at h

lemma parse_ffb_effect_id_bounds (output : G29OutputReport) (e : FfbEffect)
    (h : parse_ffb_effect output = .ok (some e)) :
    1 ≤ e.id ∧ e.id ≤ 40 := by
  unfold parse_ffb_effect at h
  by_cases h1 : output.report_id ≠ 1 ∨ output.data.isEmpty
  · rw [if_pos h1] at h
    exact absurd h (by simp)
  · rw [if_neg h1] at h
    by_cases h2 : 0 < output.data.headD 0 ∧ output.data.headD 0 ≤ 40
    · rw [if_pos h2] at h
      by_cases h3 : output.data.length < 8
      · rw [if_pos h3] at h
        exact absurd h (by simp)
      · rw [if_neg h3] at h
        rcases hp : parse_effect_by_type (output.data.headD 0)
            (output.data.getD 1 0) (output.data.drop 2) with e2 | e2
        · rw [hp] at h
          exact absurd h (by simp [Except.map])
        · rw [hp] at h
          simp only [Except.map, Except.ok.injEq, Option.some.injEq] at h
          subst h
          have hid := parse_effect_by_type_id _ _ _ _ hp
          rw [hid]
          omega
    · rw [if_neg h2] at h
      exact absurd h (by simp)

lemma insertActive_inv (st : FfbEngineState) (k : ℕ) (v : ActiveEffect)
    (hinv : EngineInv st) (hk1 : 1 ≤ k) (hk2 : k ≤ 40) :
    EngineInv { st with active_effects := insertActive st.active_effects k v } := by
  obtain ⟨hnd, hmem⟩ := hinv
  constructor
  · simp only [insertActive, List.map_cons, List.nodup_cons]
    constructor
    · intro hmem2
      obtain ⟨p, hp, hpk⟩ := List.mem_map.mp hmem2
      have hne : p.1 ≠ k := by
        have := (List.mem_filter.mp hp).2
        simpa using this
      exact hne hpk
    · exact hnd.sublist ((List.filter_sublist _).map Prod.fst)
  · intro p hp
    rcases List.mem_cons.mp hp with h | h
    · subst h
      exact ⟨hk1, hk2⟩
    · exact hmem p (List.mem_filter.mp h).1

lemma update_active_effects_inv (config : FfbConfig) (st st2 : FfbEngineState)
    (now : ℕ) (commands : List IforceCommand) (hinv : EngineInv st)
    (h : update_active_effects config st now = some (st2, commands)) :
    EngineInv st2 := by
  obtain ⟨hnd, hmem⟩ := hinv
  unfold update_active_effects at h
  split_ifs at h with h1 h2
  · rw [Option.some.injEq, Prod.mk.injEq] at h
    rw [← h.1]
    exact ⟨hnd, hmem⟩
  · rw [Option.some.injEq, Prod.mk.injEq] at h
    rw [← h.1]
    constructor
    · exact hnd.sublist ((List.filter_sublist _).map Prod.fst)
    · intro p hp
      exact hmem p (List.mem_filter.mp hp).1

lemma engineInv_length_le (st : FfbEngineState) (hinv : EngineInv st) :
    st.active_effects.length ≤ 40 := by
  obtain ⟨hnd, hmem⟩ := hinv
  have hlen : st.active_effects.length = (st.active_effects.map Prod.fst).length :=
    (List.length_map _ _).symm
  rw [hlen, ← List.toFinset_card_of_nodup hnd]
  have hsub : (st.active_effects.map Prod.fst).toFinset ⊆ Finset.Icc 1 40 := by
    intro k hk
    obtain ⟨p, hp, hpk⟩ := List.mem_map.mp (List.mem_toFinset.mp hk)
    have := hmem p hp
    rw [Finset.mem_Icc]
    omega
  calc (st.active_effects.map Prod.fst).toFinset.card
      ≤ (Finset.Icc 1 40).card := Finset.card_le_card hsub
    _ = 40 := by rw [Nat.card_Icc]

/-- C8: provided every descriptor fed to the engine comes from the FFB
parser — whose accepted effect ids lie in `[1, 40]` — the active-effect
table keeps all keys in `[1, 40]` with distinct keys; the invariant is
preserved by `translate_effect` (insert/refresh) and by
`update_active_effects` (expiry sweep), and it bounds the table at 40
entries. -/
theorem C8_active_table_invariant :
    (∀ (output : G29OutputReport) (e : FfbEffect),
      parse_ffb_effect output = .ok (some e) → 1 ≤ e.id ∧ e.id ≤ 40) ∧
    (∀ (config : FfbConfig) (st : FfbEngineState) (now : ℕ) (e : FfbEffect),
      EngineInv st → 1 ≤ e.id → e.id ≤ 40 →
      EngineInv (translate_effect config st now e).1) ∧
    (∀ (config : FfbConfig) (st st2 : FfbEngineState) (now : ℕ)
      (commands : List IforceCommand), EngineInv st →
      update_active_effects config st now = some (st2, commands) →
      EngineInv st2) ∧
    (∀ st : FfbEngineState, EngineInv st → st.active_effects.length ≤ 40) := by
  refine ⟨parse_ffb_effect_id_bounds, ?_, ?_, engineInv_length_le⟩
  · intro config st now e hinv h1 h2
    unfold translate_effect
    split
    · exact hinv
    · split <;> exact insertActive_inv st e.id _ hinv h1 h2
  · intro config st st2 now commands hinv h
    exact update_active_effects_inv config st st2 now commands hinv h

/-- Witness for C8 at concrete inputs: the parsed S4 effect id is in
bounds, inserting it into the empty table preserves the invariant, and the
resulting table respects the 40-entry bound. -/
theorem C8_active_table_invariant_witness :
    (1 ≤ (1 : ℕ) ∧ (1 : ℕ) ≤ 40) ∧
    EngineInv (translate_effect cfgS4 st0 0
      { id := 1, effect_type := .Constant { magnitude := 500, duration := 1000 },
        gain := 255 }).1 ∧
    (translate_effect cfgS4 st0 0
      { id := 1, effect_type := .Constant { magnitude := 500, duration := 1000 },
        gain := 255 }).1.active_effects.length ≤ 40 := by
  have hinv0 : EngineInv st0 := by
    constructor
    · simp [st0]
    · intro p hp
      simp [st0] at hp
  have hparse := C8_active_table_invariant.1
    { report_id := 1, data := [1, 1, 0xF4, 1, 0xE8, 3, 0, 0] }
    { id := 1, effect_type := .Constant { magnitude := 500, duration := 1000 },
      gain := 255 } (by rfl)
  have hins := C8_active_table_invariant.2.1 cfgS4 st0 0
    { id := 1, effect_type := .Constant { magnitude := 500, duration := 1000 },
      gain := 255 } hinv0 hparse.1 hparse.2
  exact ⟨hparse, hins, C8_active_table_invariant.2.2.2 _ hins⟩

/-! ## Claim C9: totality of the input translation -/

/-- A pedal curve that cannot panic: any analytic curve, or a Custom curve
with a nonempty lookup table. -/
def curveTotal : CurveType → Prop
  | .Custom table => table ≠ []
  | _ => True

/-- Input configuration with an empty Custom throttle table, the
counterexample configuration for C9. -/
def cfgEmptyLut : InputConfig :=
  { cfgW with pedal_curves :=
      { throttle_curve := .Custom [], brake_curve := .Linear,
        clutch_curve := .Linear } }

/-- C9 counterexample: with an (allowed by the config model) empty Custom
lookup table, `translate` panics — `table.len() - 1` underflows and the
table indexing goes out of bounds — modelled as `none`, so not every
invocation produces a report. -/
theorem C9_counterexample :
    InputTranslator.translate cfgEmptyLut inputW = none := by
  rfl

lemma apply_pedal_curve_total (curve : CurveType) (raw : ℕ)
    (h : curveTotal curve) : (apply_pedal_curve curve raw).isSome := by
  cases curve with
  | Linear => rfl
  | Squared => rfl
  | Cubed => rfl
  | Custom table =>
    have : ¬ table.isEmpty := by
      simpa [List.isEmpty_iff] using h
    simp only [apply_pedal_curve, this, if_false]
    rfl

/-- C9 amended: `translate` is total — producing a `G29InputReport` for
every input report, every deadzone, every multiplier, every button map and
every analytic curve — provided each Custom lookup table in the
configuration is nonempty; an empty table makes the pedal-curve lookup
panic. -/
theorem C9_translate_total (config : InputConfig)
    (input : ThrustmasterInputReport)
    (ht : curveTotal config.pedal_curves.throttle_curve)
    (hb : curveTotal config.pedal_curves.brake_curve)
    (hc : curveTotal config.pedal_curves.clutch_curve) :
    (InputTranslator.translate config input).isSome := by
  obtain ⟨vt, hvt⟩ := Option.isSome_iff_exists.mp
    (apply_pedal_curve_total _ input.throttle ht)
  obtain ⟨vb, hvb⟩ := Option.isSome_iff_exists.mp
    (apply_pedal_curve_total _ input.brake hb)
  obtain ⟨vc, hvc⟩ := Option.isSome_iff_exists.mp
    (apply_pedal_curve_total _ input.clutch hc)
  unfold InputTranslator.translate
  rw [hvt, hvb, hvc]
  rfl

/-- Witness for C9 at the all-Linear configuration and the zero report. -/
theorem C9_translate_total_witness :
    (InputTranslator.translate cfgW inputW).isSome :=
  C9_translate_total cfgW inputW (by constructor) (by constructor) (by constructor)

/-! ## Claim C5: pedal-curve range, endpoints, monotonicity -/

lemma div255_nonneg (p : ℕ) : (0 : ℚ) ≤ (p : ℚ) / 255 := by positivity

lemma div255_le_one {p : ℕ} (h : p ≤ 255) : (p : ℚ) / 255 ≤ 1 := by
  rw [div_le_one (by norm_num)]
  exact_mod_cast h

lemma List_getD_mem {l : List ℚ} {i : ℕ} (h : i < l.length) : l.getD i 0 ∈ l := by
  rw [List.getD_eq_getElem?_getD, List.getElem?_eq_getElem h]
  exact List.getElem_mem h

lemma analytic_range (curve : CurveType)
    (hcv : curve = CurveType.Linear ∨ curve = CurveType.Squared ∨
      curve = CurveType.Cubed) (p : ℕ) (hp : p ≤ 255) :
    ∃ v, apply_pedal_curve curve p = some v ∧ v ≤ 1023 := by
  have h0 := div255_nonneg p
  have h1 := div255_le_one hp
  set n : ℚ := (p : ℚ) / 255 with hn
  rcases hcv with h | h | h <;> subst h
  · exact ⟨_, rfl, f32ToU32_le (by positivity) (by norm_num) (by nlinarith)⟩
  · exact ⟨_, rfl, f32ToU32_le (by positivity) (by norm_num) (by nlinarith)⟩
  · exact ⟨_, rfl, f32ToU32_le (by positivity) (by norm_num) (by nlinarith)⟩

lemma analytic_endpoint_zero (curve : CurveType)
    (hcv : curve = CurveType.Linear ∨ curve = CurveType.Squared ∨
      curve = CurveType.Cubed) :
    apply_pedal_curve curve 0 = some 0 := by
  rcases hcv with h | h | h <;> subst h <;>
    norm_num [apply_pedal_curve, f32ToU32, ratTrunc, intClamp]

lemma analytic_endpoint_full (curve : CurveType)
    (hcv : curve = CurveType.Linear ∨ curve = CurveType.Squared ∨
      curve = CurveType.Cubed) :
    apply_pedal_curve curve 255 = some 1023 := by
  rcases hcv with h | h | h <;> subst h <;>
    norm_num [apply_pedal_curve, f32ToU32, ratTrunc, intClamp] <;> decide

lemma analytic_mono (curve : CurveType)
    (hcv : curve = CurveType.Linear ∨ curve = CurveType.Squared ∨
      curve = CurveType.Cubed) (p q : ℕ) (hpq : p ≤ q) (hq : q ≤ 255)
    (u v : ℕ) (hu : apply_pedal_curve curve p = some u)
    (hv : apply_pedal_curve curve q = some v) : u ≤ v := by
  have hnp := div255_nonneg p
  have hnq := div255_nonneg q
  have hle : (p : ℚ) / 255 ≤ (q : ℚ) / 255 := by
    apply div_le_div_of_nonneg_right ?_ (by norm_num)
    exact_mod_cast hpq
  rcases hcv with h | h | h
  all_goals subst h
  all_goals simp only [apply_pedal_curve, Option.some.injEq] at hu hv
  all_goals rw [← hu, ← hv]
  · exact f32ToU32_mono (by positivity) (by nlinarith)
  · exact f32ToU32_mono (by positivity) (by nlinarith)
  · refine f32ToU32_mono (by positivity) ?_
    have h2 : (p : ℚ) / 255 * ((p : ℚ) / 255) ≤ (q : ℚ) / 255 * ((q : ℚ) / 255) := by
      nlinarith
    nlinarith [mul_le_mul h2 hle hnp (mul_nonneg hnq hnq)]

lemma f32ToUsize_int_of_nonneg {x : ℚ} (hx : 0 ≤ x) :
    (f32ToUsize x : ℤ) = ⌊x⌋ := by
  unfold f32ToUsize
  rw [ratTrunc_of_nonneg hx]
  have : 0 ≤ ⌊x⌋ := Int.floor_nonneg.mpr hx
  omega

lemma f32ToUsize_cast_rat {x : ℚ} (hx : 0 ≤ x) :
    ((f32ToUsize x : ℕ) : ℚ) = ((⌊x⌋ : ℤ) : ℚ) := by
  have := f32ToUsize_int_of_nonneg hx
  exact_mod_cast congrArg (fun z : ℤ => (z : ℚ)) this

lemma frac_nonneg_of {x : ℚ} (hx : 0 ≤ x) :
    0 ≤ x - ((f32ToUsize x : ℕ) : ℚ) := by
  rw [f32ToUsize_cast_rat hx]
  linarith [Int.floor_le x]

lemma frac_lt_one_of {x : ℚ} (hx : 0 ≤ x) :
    x - ((f32ToUsize x : ℕ) : ℚ) < 1 := by
  rw [f32ToUsize_cast_rat hx]
  linarith [Int.lt_floor_add_one x]

lemma custom_range (table : List ℚ) (hne : table ≠ [])
    (hvals : ∀ y ∈ table, 0 ≤ y ∧ y ≤ 1) (p : ℕ) (hp : p ≤ 255) :
    ∃ v, apply_pedal_curve (.Custom table) p = some v ∧ v ≤ 1023 := by
  have hL : 1 ≤ table.length := List.length_pos.mpr hne
  have hie : table.isEmpty = false := by
    simpa [List.isEmpty_iff] using hne
  have hn0 : (0 : ℚ) ≤ (p : ℚ) / 255 := div255_nonneg p
  simp only [apply_pedal_curve, hie, Bool.false_eq_true, if_false]
  refine ⟨_, rfl, ?_⟩
  have hx0 : (0 : ℚ) ≤ (p : ℚ) / 255 * ((table.length - 1 : ℕ) : ℚ) :=
    mul_nonneg hn0 (by positivity)
  apply f32ToU32_le ?_ (by norm_num) ?_
  · apply mul_nonneg ?_ (by norm_num)
    split
    · exact (hvals _ (List_getD_mem (by omega))).1
    · next hbr =>
      have hidx : f32ToUsize ((p : ℚ) / 255 * ((table.length - 1 : ℕ) : ℚ)) <
          table.length - 1 := by omega
      have ha := hvals _ (List_getD_mem (i := f32ToUsize ((p : ℚ) / 255 *
        ((table.length - 1 : ℕ) : ℚ))) (by omega))
      have hb := hvals _ (List_getD_mem (i := f32ToUsize ((p : ℚ) / 255 *
        ((table.length - 1 : ℕ) : ℚ)) + 1) (by omega))
      have hf0 := frac_nonneg_of hx0
      have hf1 := frac_lt_one_of hx0
      nlinarith [ha.1, ha.2, hb.1, hb.2]
  · have h1023 : (0 : ℚ) < 1023 := by norm_num
    rw [show ((1023 : ℕ) : ℚ) = 1023 from by norm_num]
    have hcb : (if table.length - 1 ≤ f32ToUsize ((p : ℚ) / 255 *
          ((table.length - 1 : ℕ) : ℚ)) then
            table.getD (table.length - 1) 0
          else
            table.getD (f32ToUsize ((p : ℚ) / 255 * ((table.length - 1 : ℕ) : ℚ))) 0 *
                (1 - ((p : ℚ) / 255 * ((table.length - 1 : ℕ) : ℚ) -
                  (f32ToUsize ((p : ℚ) / 255 * ((table.length - 1 : ℕ) : ℚ)) : ℚ))) +
              table.getD (f32ToUsize ((p : ℚ) / 255 * ((table.length - 1 : ℕ) : ℚ)) + 1) 0 *
                ((p : ℚ) / 255 * ((table.length - 1 : ℕ) : ℚ) -
                  (f32ToUsize ((p : ℚ) / 255 * ((table.length - 1 : ℕ) : ℚ)) : ℚ))) ≤ 1 := by
      split
      · exact (hvals _ (List_getD_mem (by omega))).2
      · next hbr =>
        have hidx : f32ToUsize ((p : ℚ) / 255 * ((table.length - 1 : ℕ) : ℚ)) <
            table.length - 1 := by omega
        have ha := hvals _ (List_getD_mem (i := f32ToUsize ((p : ℚ) / 255 *
          ((table.length - 1 : ℕ) : ℚ))) (by omega))
        have hb := hvals _ (List_getD_mem (i := f32ToUsize ((p : ℚ) / 255 *
          ((table.length - 1 : ℕ) : ℚ)) + 1) (by omega))
        have hf0 := frac_nonneg_of hx0
        have hf1 := frac_lt_one_of hx0
        nlinarith [ha.1, ha.2, hb.1, hb.2]
    nlinarith [hcb]

lemma custom_endpoint_zero (table : List ℚ) (hne : table ≠ [])
    (hhead : table.getD 0 0 = 0) :
    apply_pedal_curve (.Custom table) 0 = some 0 := by
  have hie : table.isEmpty = false := by
    simpa [List.isEmpty_iff] using hne
  rw [List.getD_eq_getElem?_getD] at hhead
  simp only [apply_pedal_curve, hie, Bool.false_eq_true, if_false]
  norm_num [f32ToUsize, ratTrunc, intClamp]
  split
  · next h0 =>
    rw [h0, hhead]
    norm_num [f32ToU32, ratTrunc, intClamp]
  · rw [hhead]
    norm_num [f32ToU32, ratTrunc, intClamp]

lemma custom_endpoint_full (table : List ℚ) (hne : table ≠ [])
    (hlast : table.getD (table.length - 1) 0 = 1) :
    apply_pedal_curve (.Custom table) 255 = some 1023 := by
  have hie : table.isEmpty = false := by
    simpa [List.isEmpty_iff] using hne
  rw [List.getD_eq_getElem?_getD] at hlast
  simp only [apply_pedal_curve, hie, Bool.false_eq_true, if_false]
  norm_num [f32ToUsize, ratTrunc, intClamp]
  rw [hlast]
  norm_num [f32ToU32, ratTrunc, intClamp]
  decide

/-- C5 counterexample: the Custom lookup table `[2.0]` is accepted by the
configuration model, yet pedal input 0 produces 2046 — outside `[0, 1023]`
and violating `0 ↦ 0`. -/
theorem C5_counterexample :
    apply_pedal_curve (.Custom [2]) 0 = some 2046 ∧ ¬ (2046 : ℕ) ≤ 1023 ∧
    (2046 : ℕ) ≠ 0 := by
  refine ⟨?_, by decide, by decide⟩
  norm_num [apply_pedal_curve, f32ToUsize, f32ToU32, ratTrunc, intClamp]
  decide

/-- C5 amended: for every pedal input in `[0, 255]`: with Linear, Squared
and Cubed curves the output lies in `[0, 1023]`, input 0 maps to 0, input
255 maps to 1023, and the output is monotone non-decreasing; with a Custom
lookup table the same range bound holds provided the table is nonempty with
all entries in `[0, 1]`, input 0 maps to 0 provided the first entry is 0,
and input 255 maps to 1023 provided the last entry is 1 (an arbitrary
table violates all three, see the counterexample). -/
theorem C5_pedal_curve_properties :
    (∀ curve, curve = CurveType.Linear ∨ curve = CurveType.Squared ∨
        curve = CurveType.Cubed →
      (∀ p, p ≤ 255 → ∃ v, apply_pedal_curve curve p = some v ∧ v ≤ 1023) ∧
      apply_pedal_curve curve 0 = some 0 ∧
      apply_pedal_curve curve 255 = some 1023 ∧
      (∀ p q, p ≤ q → q ≤ 255 → ∀ u v, apply_pedal_curve curve p = some u →
        apply_pedal_curve curve q = some v → u ≤ v)) ∧
    (∀ table, table ≠ [] → (∀ y ∈ table, 0 ≤ y ∧ y ≤ 1) →
      (∀ p, p ≤ 255 →
        ∃ v, apply_pedal_curve (.Custom table) p = some v ∧ v ≤ 1023) ∧
      (table.getD 0 0 = 0 → apply_pedal_curve (.Custom table) 0 = some 0) ∧
      (table.getD (table.length - 1) 0 = 1 →
        apply_pedal_curve (.Custom table) 255 = some 1023)) := by
  constructor
  · intro curve hcv
    exact ⟨analytic_range curve hcv, analytic_endpoint_zero curve hcv,
      analytic_endpoint_full curve hcv, analytic_mono curve hcv⟩
  · intro table hne hvals
    exact ⟨custom_range table hne hvals,
      fun hh => custom_endpoint_zero table hne hh,
      fun hl => custom_endpoint_full table hne hl⟩

/-- Witness for C5 at concrete inputs: the Squared curve maps 255 to 1023,
and the well-formed table `[0, 1]` maps pedal 0 to 0. -/
theorem C5_pedal_curve_properties_witness :
    apply_pedal_curve CurveType.Squared 255 = some 1023 ∧
    apply_pedal_curve (.Custom [0, 1]) 0 = some 0 :=
  ⟨(C5_pedal_curve_properties.1 CurveType.Squared (Or.inr (Or.inl rfl))).2.2.1,
   (C5_pedal_curve_properties.2 [0, 1] (by simp) (by norm_num)).2.1 (by norm_num)⟩
